import Mathlib

/-!
Verification of the Linux `DebuggerCore` backend
(`src/plugins/DebuggerCore/unix/linux/DebuggerCore.cpp`).

The development shallowly embeds the per-thread ptrace state machine of the
debugger core: raw `waitpid` status words are `Nat` (they are non-negative
32-bit values produced by the kernel; all the C macros used by the source
are pure bit-mask operations), the thread table (a `QMap<tid, thread_info>`,
unique keys) is an association list, and the `waited_threads` `QSet` is a
duplicate-free list manipulated only through set-like insert/remove helpers.
Kernel interaction (`waitpid`, `PTRACE_GETEVENTMSG`, ...) is modelled by an
explicit environment supplying each call's outcome, and every ptrace request
issued is recorded in an action trace so that statements about which calls
are made (and with which signal argument) can be proved.
-/

namespace DebuggerCore

/-! ## Wait-status words and the glibc macros used by the source -/

/-- Signal number of SIGTRAP on Linux/x86. -/
def SIGTRAP : Nat := 5

/-- Signal number of SIGSTOP on Linux/x86. -/
def SIGSTOP : Nat := 19

/-- Value of the `PTRACE_EVENT_CLONE` constant (the source defines it as 3). -/
def PTRACE_EVENT_CLONE : Nat := 3

/-- glibc `WIFEXITED(status)`: `(status & 0x7f) == 0`. -/
def WIFEXITED (s : Nat) : Bool := s % 128 == 0

/-- glibc `WIFSTOPPED(status)`: `(status & 0xff) == 0x7f`. -/
def WIFSTOPPED (s : Nat) : Bool := s % 256 == 127

/-- glibc `WSTOPSIG(status)`: `(status & 0xff00) >> 8`. -/
def WSTOPSIG (s : Nat) : Nat := s / 256 % 256

/-- glibc `WTERMSIG(status)`: `status & 0x7f`. -/
def WTERMSIG (s : Nat) : Nat := s % 128

/-- glibc `WIFSIGNALED(status)`: `((signed char)(((status) & 0x7f) + 1) >> 1) > 0`,
which for the 7-bit value `t = status & 0x7f` holds exactly when `t` is
neither `0` nor `0x7f`. -/
def WIFSIGNALED (s : Nat) : Bool := s % 128 != 0 && s % 128 != 127

/-- Source function `resume_code`: translate a raw wait status into the signal
to inject on continuation (file-static helper, lines 100-115). -/
def resume_code (status : Nat) : Nat :=
  if WIFSTOPPED status && WSTOPSIG status == SIGSTOP then 0
  else if WIFSIGNALED status then WTERMSIG status
  else if WIFSTOPPED status then WSTOPSIG status
  else 0

/-- Source function `is_clone_event` (lines 121-127): a SIGTRAP stop whose
high 16 bits carry `PTRACE_EVENT_CLONE`. -/
def is_clone_event (status : Nat) : Bool :=
  if WIFSTOPPED status && WSTOPSIG status == SIGTRAP then
    (status / 65536) % 65536 == PTRACE_EVENT_CLONE
  else false

/-! ## The `/proc/<pid>/stat` parser (lines 197-259)

Model of the single `sscanf` call in `get_user_stat` with the format
`"%d %c%255[...]%c %c %d %d ... %ld"` (the scanset being the
characters `0-9 a-z A-Z _`, space, `#`, `~`, `/` and `-`): a `%d`-style conversion
skips whitespace and reads an optionally signed digit string, `%c` reads
exactly one character, `%255[...]` reads a non-empty run of at most 255
characters drawn from the scanset, and a blank in the format skips any run
of whitespace.  All numeric conversions after the state character share the
digit-string grammar, so they are modelled uniformly; the return value is
the number of conversions assigned before the first failure. -/

/-- Whitespace in the C locale (`isspace`): space, tab, newline, vertical
tab, form feed, carriage return. -/
def isCSpace (c : Char) : Bool :=
  c == ' ' || c == '\t' || c == '\n' || c == Char.ofNat 11 || c == Char.ofNat 12 || c == '\r'

/-- Decimal digit in the C locale. -/
def isDigitChar (c : Char) : Bool :=
  48 ≤ c.toNat && c.toNat ≤ 57

/-- Character of the comm scanset: `0-9 a-z A-Z _`, space, `#`, `~`, `/`, `-`. -/
def isScanChar (c : Char) : Bool :=
  isDigitChar c || (97 ≤ c.toNat && c.toNat ≤ 122) || (65 ≤ c.toNat && c.toNat ≤ 90) ||
    c == '_' || c == ' ' || c == '#' || c == '~' || c == '/' || c == '-'

/-- Skip a (possibly empty) run of whitespace, as a blank in a scanf format
does. -/
def skipSpaces (cs : List Char) : List Char :=
  match cs with
  | [] => []
  | c :: rest => if isCSpace c then skipSpaces rest else c :: rest

/-- Consume a maximal run of decimal digits, accumulating their value. -/
def scanDigits (cs : List Char) (acc : Nat) : Nat × List Char :=
  match cs with
  | [] => (acc, [])
  | c :: rest =>
    if isDigitChar c then scanDigits rest (acc * 10 + (c.toNat - 48))
    else (acc, c :: rest)

/-- One `%d`-style conversion: skip whitespace, an optional sign, then a
non-empty digit string; `none` on matching failure. -/
def scanInt (cs : List Char) : Option (Int × List Char) :=
  match skipSpaces cs with
  | [] => none
  | c :: rest =>
    if c == '-' then
      match rest with
      | [] => none
      | d :: _ =>
        if isDigitChar d then
          let r := scanDigits rest 0
          some (-(r.1 : Int), r.2)
        else none
    else if c == '+' then
      match rest with
      | [] => none
      | d :: _ =>
        if isDigitChar d then
          let r := scanDigits rest 0
          some ((r.1 : Int), r.2)
        else none
    else if isDigitChar c then
      let r := scanDigits (c :: rest) 0
      some ((r.1 : Int), r.2)
    else none

/-- Take at most `fuel` leading characters belonging to the comm scanset. -/
def takeSet (fuel : Nat) (cs : List Char) : List Char × List Char :=
  match fuel, cs with
  | 0, rest => ([], rest)
  | _ + 1, [] => ([], [])
  | fuel + 1, c :: rest =>
    if isScanChar c then
      let r := takeSet fuel rest
      (c :: r.1, r.2)
    else ([], c :: rest)

/-- The `%255[...]` comm conversion: a non-empty run of scanset
characters, at most 255 long. -/
def scanSet (cs : List Char) : Option (List Char × List Char) :=
  match takeSet 255 cs with
  | ([], _) => none
  | (t, rest) => some (t, rest)

/-- Run up to `n` further numeric conversions (the 41 fields `ppid` through
`cguest_time`), returning how many succeeded and their values. -/
def parseNums (n : Nat) (cs : List Char) : Nat × List Int :=
  match n with
  | 0 => (0, [])
  | m + 1 =>
    match scanInt cs with
    | none => (0, [])
    | some (v, cs2) =>
      let r := parseNums m cs2
      (r.1 + 1, v :: r.2)

/-- The fields of `struct user_stat` (lines 129-190) that the claims read:
`pid` and `state`, the parenthesized `comm`, and the numeric fields `ppid`
(04) through `cguest_time` (44) in order.  Fields left unassigned by a
partial parse keep their defaults (C leaves them indeterminate; no claim
reads an unassigned field). -/
structure user_stat where
  pid : Int := 0
  comm : List Char := []
  state : Char := ' '
  fields : List Int := []
deriving DecidableEq, Repr

/-- Source function `get_user_stat` (lines 197-259) applied to the first
line of `/proc/<pid>/stat` (the file read is replaced by the line contents):
returns the `sscanf` result — the number of assigned conversions, `-1` when
input ends before the first one — together with the parsed record.  The two
`%c` conversions that consume the parentheses around comm are assigned (and
counted) but their values are discarded, as in the source. -/
def get_user_stat (line : List Char) : Int × user_stat :=
  match scanInt line with
  | none =>
    let t := skipSpaces line
    let t2 := match t with
      | '-' :: r => r
      | '+' :: r => r
      | other => other
    (if t2.isEmpty then -1 else 0, {})
  | some (pidv, cs1) =>
    match skipSpaces cs1 with
    | [] => (1, { pid := pidv })
    | _ :: cs3 =>
      match scanSet cs3 with
      | none => (2, { pid := pidv })
      | some (commv, cs4) =>
        match cs4 with
        | [] => (3, { pid := pidv, comm := commv })
        | _ :: cs5 =>
          match skipSpaces cs5 with
          | [] => (4, { pid := pidv, comm := commv })
          | stc :: cs7 =>
            let r := parseNums 41 cs7
            (5 + (r.1 : Int), { pid := pidv, comm := commv, state := stc, fields := r.2 })

/-! ### Generator for well-formed stat lines -/

/-- Decimal digit character. -/
def digitChar (d : Nat) : Char :=
  match d with
  | 0 => '0'
  | 1 => '1'
  | 2 => '2'
  | 3 => '3'
  | 4 => '4'
  | 5 => '5'
  | 6 => '6'
  | 7 => '7'
  | 8 => '8'
  | _ => '9'

/-- Fueled decimal rendering of a natural number (most significant digit
first); `fuel` bounds the number of digits. -/
def natToCharsAux (fuel n : Nat) : List Char :=
  match fuel with
  | 0 => []
  | fuel + 1 =>
    if n < 10 then [digitChar n]
    else natToCharsAux fuel (n / 10) ++ [digitChar (n % 10)]

/-- Decimal rendering of a natural number. -/
def natToChars (n : Nat) : List Char :=
  natToCharsAux (n + 1) n

/-- Decimal rendering of an integer, with a leading minus sign when
negative. -/
def intToChars (i : Int) : List Char :=
  if i < 0 then '-' :: natToChars i.natAbs else natToChars i.natAbs

/-- Render a list of numeric stat fields, each preceded by one space. -/
def renderFields (fields : List Int) : List Char :=
  match fields with
  | [] => []
  | f :: rest => ' ' :: (intToChars f ++ renderFields rest)

/-- A well-formed `/proc/<pid>/stat` line: the pid, the parenthesized comm,
the one-character state, then the numeric fields separated by single
spaces. -/
def mkStatLine (pid : Nat) (comm : List Char) (state : Char) (fields : List Int) : List Char :=
  natToChars pid ++ [' ', '('] ++ comm ++ [')', ' ', state] ++ renderFields fields

/-! ## Thread table and session state -/

/-- Run state of a tracked thread.  Modelled from the spec: the
`thread_info::THREAD_STOPPED` enumeration lives in the (absent) header
`DebuggerCore.h`; per spec section 3, `run_state` is one of Running/Stopped. -/
inductive run_state where
  | Running : run_state
  | Stopped : run_state
deriving DecidableEq, Repr

/-- Record `thread_info`: the per-thread record kept in the `threads_` QMap, holding
the raw last wait status and the run state.  Modelled from the spec (the
struct itself is declared in the absent header); its uses in the source are
`{ status, THREAD_STOPPED }` aggregates. -/
structure thread_info where
  status : Nat
  state : run_state
deriving DecidableEq, Repr

/-- The `threads_` table: `QMap<edb::tid_t, thread_info>` with unique keys,
modelled as an association list. -/
abbrev ThreadTable := List (Nat × thread_info)

/-- Lookup in the thread table (`QMap::value` / iterator find). -/
def tlookup (m : ThreadTable) (k : Nat) : Option thread_info :=
  match m with
  | [] => none
  | (k1, v) :: rest => if k1 = k then some v else tlookup rest k

/-- Membership test, `QMap::contains`. -/
def tcontains (m : ThreadTable) (k : Nat) : Bool :=
  (tlookup m k).isSome

/-- Insertion, `QMap::insert`: replaces the value at an existing key, otherwise adds the
key. -/
def tinsert (m : ThreadTable) (k : Nat) (v : thread_info) : ThreadTable :=
  match m with
  | [] => [(k, v)]
  | (k1, v1) :: rest => if k1 = k then (k, v) :: rest else (k1, v1) :: tinsert rest k v

/-- Removal, `QMap::remove`: drops the key. -/
def tremove (m : ThreadTable) (k : Nat) : ThreadTable :=
  m.filter (fun p => p.1 ≠ k)

/-- Status assignment `threads_[tid].status = status`: QMap `operator[]` value-initializes a
missing entry (status 0, first enumerator of the run state, i.e. Stopped)
before the status field is assigned. -/
def update_status (m : ThreadTable) (k : Nat) (st : Nat) : ThreadTable :=
  match tlookup m k with
  | some info => tinsert m k { info with status := st }
  | none => tinsert m k { status := st, state := run_state.Stopped }

/-- The `waited_threads_` QSet, modelled as a duplicate-free list. -/
abbrev WaitedSet := List Nat

/-- Membership test, `QSet::contains`. -/
def wcontains (w : WaitedSet) (t : Nat) : Bool :=
  match w with
  | [] => false
  | x :: rest => x == t || wcontains rest t

/-- Insertion, `QSet::insert`. -/
def winsert (w : WaitedSet) (t : Nat) : WaitedSet :=
  if wcontains w t then w else t :: w

/-- Removal, `QSet::remove`: a set holds at most one copy, so removal clears every
occurrence of the element. -/
def wremove (w : WaitedSet) (t : Nat) : WaitedSet :=
  w.filter (fun x => x ≠ t)

/-- The mutable session state of one `DebuggerCore` instance (spec section 3,
`SessionState`): fields `pid_`, `active_thread_`, `event_thread_`, `threads_`
and `waited_threads_` of the source class. -/
structure CoreState where
  pid : Nat
  active_thread : Nat
  event_thread : Nat
  threads : ThreadTable
  waited_threads : WaitedSet
deriving DecidableEq, Repr

/-- The empty session: what `reset()` leaves behind and what a fresh core
starts from. -/
def initState : CoreState :=
  { pid := 0, active_thread := 0, event_thread := 0, threads := [], waited_threads := [] }

/-- Source method `DebuggerCore::reset` (lines 942-950): clear the tables and zero the ids
(the breakpoint store and binary info are external to this model). -/
def reset (s : CoreState) : CoreState :=
  { s with threads := [], waited_threads := [], active_thread := 0, pid := 0, event_thread := 0 }

/-- Modelled from the spec: `attached()` is declared in the absent base-class
header; per spec section 3, `pid` is 0 exactly when detached. -/
def attached (s : CoreState) : Bool := s.pid != 0

/-! ## Kernel actions and environments -/

/-- One kernel request issued by the core, recorded in execution traces. -/
inductive Action where
  | ptraceCont (tid : Nat) (sig : Nat) : Action
  | ptraceStep (tid : Nat) (sig : Nat) : Action
  | tgkill (pid tid sig : Nat) : Action
  | waitpidCall (tid : Nat) : Action
  | getsiginfo (tid : Nat) : Action
  | setOptions (tid : Nat) : Action
  | getEventMsg (tid : Nat) : Action
  | detachInvoked : Action
  | ptraceDetach (tid : Nat) : Action
  | getRegs (tid : Nat) : Action
  | getRegSet (tid : Nat) : Action
  | peekUserDbg (tid : Nat) : Action
deriving DecidableEq, Repr, BEq

/-- Outcomes the kernel supplies to the core during one call into it:
`poll t` is the non-blocking `waitpid(t, WNOHANG)` of the event pump (some
status when a pid was returned), `get_event_msg` the `PTRACE_GETEVENTMSG`
result, `wait_new_thread` the blocking `waitpid` on a clone child,
`wait_stop` the blocking `waitpid` of `stop_threads`, and `sigchld_timeout`
tells whether `native::wait_for_sigchld` timed out. -/
structure Env where
  poll : Nat → Option Nat
  get_event_msg : Nat → Option Nat
  wait_new_thread : Nat → Option Nat
  wait_stop : Nat → Option Nat
  sigchld_timeout : Bool

/-! ## The ptrace wrapper (lines 362-399) -/

/-- Result of a ptrace wrapper call: successor state, whether the
`Q_ASSERT` preconditions held, and the requests issued. -/
structure PtraceCall where
  state : CoreState
  assertOk : Bool
  actions : List Action
deriving DecidableEq, Repr

/-- Source method `DebuggerCore::ptrace_continue` (lines 362-367): assert the tid is a
waited thread and non-zero, remove it from `waited_threads_`, then issue
`PTRACE_CONT` with the given signal. -/
def ptrace_continue (s : CoreState) (tid : Nat) (sig : Nat) : PtraceCall :=
  { state := { s with waited_threads := wremove s.waited_threads tid }
    assertOk := wcontains s.waited_threads tid && tid != 0
    actions := [Action.ptraceCont tid sig] }

/-- Source method `DebuggerCore::ptrace_step` (lines 373-378): same discipline with
`PTRACE_SINGLESTEP`. -/
def ptrace_step (s : CoreState) (tid : Nat) (sig : Nat) : PtraceCall :=
  { state := { s with waited_threads := wremove s.waited_threads tid }
    assertOk := wcontains s.waited_threads tid && tid != 0
    actions := [Action.ptraceStep tid sig] }

/-- Source method `DebuggerCore::ptrace_set_options` (lines 384-388): asserts but does not
consume the waited mark. -/
def ptrace_set_options (s : CoreState) (tid : Nat) : PtraceCall :=
  { state := s
    assertOk := wcontains s.waited_threads tid && tid != 0
    actions := [Action.setOptions tid] }

/-! ## stop_threads (lines 476-494) -/

/-- Loop body of `DebuggerCore::stop_threads` over the key list of the thread
table: for every thread not yet waited, `tgkill(pid, tid, SIGSTOP)`, then a
blocking `waitpid`; only on success is the thread marked waited and its
recorded status updated. -/
def stop_threads_go (env : Env) (keys : List Nat) (s : CoreState) : CoreState × List Action :=
  match keys with
  | [] => (s, [])
  | t :: rest =>
    if wcontains s.waited_threads t then stop_threads_go env rest s
    else
      let acts := [Action.tgkill s.pid t SIGSTOP, Action.waitpidCall t]
      match env.wait_stop t with
      | some st =>
        let s1 := { s with waited_threads := winsert s.waited_threads t,
                           threads := update_status s.threads t st }
        let r := stop_threads_go env rest s1
        (r.1, acts ++ r.2)
      | none =>
        let r := stop_threads_go env rest s
        (r.1, acts ++ r.2)

/-- Source method `DebuggerCore::stop_threads`: iterate over all tracked threads. -/
def stop_threads (env : Env) (s : CoreState) : CoreState × List Action :=
  stop_threads_go env (s.threads.map Prod.fst) s

/-! ## handle_event (lines 405-470) and wait_debug_event (lines 501-515) -/

/-- The immutable `PlatformEvent` surfaced to the upper layer (the `siginfo`
snapshot is a kernel blob whose retrieval failure the source tolerates; it
carries no information used by any claim). -/
structure DebugEvent where
  pid : Nat
  tid : Nat
  status : Nat
deriving DecidableEq, Repr

/-- Result of one classifier / event-pump call. -/
structure EventResult where
  state : CoreState
  event : Option DebugEvent
  actions : List Action
deriving DecidableEq, Repr

/-- The part of `DebuggerCore::handle_event` after the thread-exit early
return: the clone branch (lines 425-450) and the normal-event branch
(lines 455-469). -/
def handle_event_rest (env : Env) (s : CoreState) (tid : Nat) (status : Nat) : EventResult :=
  if is_clone_event status then
    match env.get_event_msg tid with
    | some new_tid =>
      let s1 := { s with threads := tinsert s.threads new_tid { status := 0, state := run_state.Stopped } }
      let step1 : CoreState × Nat × List Action :=
        if !(wcontains s1.waited_threads new_tid) then
          match env.wait_new_thread new_tid with
          | some st =>
            ({ s1 with waited_threads := winsert s1.waited_threads new_tid }, st,
             [Action.waitpidCall new_tid])
          | none => (s1, 0, [Action.waitpidCall new_tid])
        else (s1, 0, [])
      let c1 := ptrace_continue step1.1 new_tid (resume_code step1.2.1)
      let c2 := ptrace_continue c1.state tid 0
      { state := c2.state, event := none
        actions := [Action.getEventMsg tid] ++ step1.2.2 ++ c1.actions ++ c2.actions }
    | none =>
      let c2 := ptrace_continue s tid 0
      { state := c2.state, event := none
        actions := [Action.getEventMsg tid] ++ c2.actions }
  else
    let e : DebugEvent := { pid := s.pid, tid := tid, status := status }
    let s1 := { s with active_thread := tid, event_thread := tid,
                       threads := update_status s.threads tid status }
    let r := stop_threads env s1
    { state := r.1, event := some e, actions := [Action.getsiginfo tid] ++ r.2 }

/-- Source method `DebuggerCore::handle_event` (lines 405-470): mark the reporting tid
waited; on `WIFEXITED` drop the thread and return null unless the table
became empty (in which case control falls through to the normal-event code,
which synthesizes the final event). -/
def handle_event (env : Env) (s : CoreState) (tid : Nat) (status : Nat) : EventResult :=
  let s0 := { s with waited_threads := winsert s.waited_threads tid }
  if WIFEXITED status then
    let s1 := { s0 with threads := tremove s0.threads tid,
                        waited_threads := wremove s0.waited_threads tid }
    if !s1.threads.isEmpty then
      { state := s1, event := none, actions := [] }
    else
      handle_event_rest env s1 tid status
  else
    handle_event_rest env s0 tid status

/-- Polling loop of `DebuggerCore::wait_debug_event`: try a non-blocking
`waitpid` on each tracked tid, handing the first pending status to
`handle_event`. -/
def wde_loop (env : Env) (keys : List Nat) (s : CoreState) : EventResult :=
  match keys with
  | [] => { state := s, event := none, actions := [] }
  | t :: rest =>
    match env.poll t with
    | some st =>
      let r := handle_event env s t st
      { r with actions := Action.waitpidCall t :: r.actions }
    | none =>
      let r := wde_loop env rest s
      { r with actions := Action.waitpidCall t :: r.actions }

/-- Source method `DebuggerCore::wait_debug_event` (lines 501-515): nothing happens unless
a session is attached and a SIGCHLD arrived within the timeout.  `msecs` is
consumed by `native::wait_for_sigchld`, whose outcome the environment
supplies. -/
def wait_debug_event (env : Env) (s : CoreState) (_msecs : Int) : EventResult :=
  if attached s then
    if !env.sigchld_timeout then
      wde_loop env (s.threads.map Prod.fst) s
    else { state := s, event := none, actions := [] }
  else { state := s, event := none, actions := [] }

/-! ## detach, resume, open, set_active_thread, get_state (lines 632-936) -/

/-- Source method `DebuggerCore::detach` (lines 632-650): when attached, stop
every thread, detach each one (clearing of the external breakpoint store is
outside this model), and reset the session.  The call itself is always
recorded, even when `attached()` makes it a no-op. -/
def detach (env : Env) (s : CoreState) : CoreState × List Action :=
  if attached s then
    let r := stop_threads env s
    let aD := (r.1.threads.map Prod.fst).map Action.ptraceDetach
    (reset r.1, [Action.detachInvoked] ++ r.2 ++ aD)
  else (s, [Action.detachInvoked])

/-- Resume policy passed by the upper layer.  Modelled from the spec: the
`edb::EVENT_STATUS` enumeration is declared outside this plugin; per spec
section 4.5 the policies are Stop, RunNormal and PassException. -/
inductive EventStatus where
  | DEBUG_STOP : EventStatus
  | DEBUG_CONTINUE : EventStatus
  | DEBUG_EXCEPTION_NOT_HANDLED : EventStatus
deriving DecidableEq, Repr

/-- Loop of `DebuggerCore::resume` (lines 701-705) over the thread table:
every still-waited thread is continued with the resume code of its own
recorded status. -/
def resume_loop (entries : ThreadTable) (s : CoreState) : CoreState × List Action :=
  match entries with
  | [] => (s, [])
  | (t, info) :: rest =>
    if wcontains s.waited_threads t then
      let c := ptrace_continue s t (resume_code info.status)
      let r := resume_loop rest c.state
      (r.1, c.actions ++ r.2)
    else resume_loop rest s

/-- Source method `DebuggerCore::resume` (lines 691-708): unless stopping,
continue the active thread (injecting its translated last signal only under
`DEBUG_EXCEPTION_NOT_HANDLED`), then continue every other waited thread with
its own resume code.  The read `threads_[tid].status` goes through QMap
`operator[]`, which inserts a value-initialized record when the key is
absent. -/
def resume (s : CoreState) (policy : EventStatus) : CoreState × List Action :=
  if attached s then
    if policy != EventStatus.DEBUG_STOP then
      let tid := s.active_thread
      let tbl :=
        match tlookup s.threads tid with
        | some _ => s.threads
        | none => tinsert s.threads tid { status := 0, state := run_state.Stopped }
      let st0 :=
        match tlookup s.threads tid with
        | some i => i.status
        | none => 0
      let code := if policy = EventStatus.DEBUG_EXCEPTION_NOT_HANDLED then resume_code st0 else 0
      let c := ptrace_continue { s with threads := tbl } tid code
      let r := resume_loop c.state.threads c.state
      (r.1, c.actions ++ r.2)
    else (s, [])
  else (s, [])

/-- Kernel outcomes consumed by the parent branch of `DebuggerCore::open`:
the status of the first `waitpid` on the forked child (`none` for a failed
wait) and whether `PTRACE_SETOPTIONS` with `PTRACE_O_TRACECLONE` succeeded. -/
structure OpenEnv where
  firstWait : Option Nat
  setOptionsOk : Bool

/-- Result of `DebuggerCore::open`. -/
structure OpenResult where
  ok : Bool
  state : CoreState
  actions : List Action
deriving DecidableEq, Repr

/-- Source method `DebuggerCore::open`, parent branch after a successful
`fork` (lines 847-920): detach any previous session, reset, wait once on the
child; the first event must be a SIGTRAP stop and `PTRACE_O_TRACECLONE` must
be set, otherwise detach and fail; on success seed the session state with
the child as its only (waited, stopped) thread. -/
def openParent (env : Env) (oenv : OpenEnv) (childPid : Nat) (s0 : CoreState) : OpenResult :=
  let d0 := detach env s0
  let s := reset d0.1
  match oenv.firstWait with
  | none => { ok := false, state := s, actions := d0.2 ++ [Action.waitpidCall childPid] }
  | some status =>
    if !(WIFSTOPPED status && WSTOPSIG status == SIGTRAP) then
      let d := detach env s
      { ok := false, state := d.1
        actions := d0.2 ++ [Action.waitpidCall childPid] ++ d.2 }
    else
      let s1 := { s with waited_threads := winsert s.waited_threads childPid }
      let so := ptrace_set_options s1 childPid
      if !oenv.setOptionsOk then
        let d := detach env so.state
        { ok := false, state := d.1
          actions := d0.2 ++ [Action.waitpidCall childPid] ++ so.actions ++ d.2 }
      else
        let s2 := { so.state with waited_threads := winsert so.state.waited_threads childPid }
        let s3 := { s2 with threads := tinsert s2.threads childPid { status := status, state := run_state.Stopped },
                            pid := childPid, active_thread := childPid, event_thread := childPid }
        { ok := true, state := s3
          actions := d0.2 ++ [Action.waitpidCall childPid] ++ so.actions }

/-- Source method `DebuggerCore::set_active_thread` (lines 926-936): the
assignment `active_thread_ = tid` is compiled out (`#if 0`); both branches
only emit a `qDebug` diagnostic and leave the session state untouched. -/
def set_active_thread (s : CoreState) (tid : Nat) : CoreState :=
  if tcontains s.threads tid then s else s

/-- Register-read slice of `DebuggerCore::get_state` (lines 730-812): every
ptrace read it issues (`PTRACE_GETREGS` line 741, `PTRACE_GETREGSET`
line 772, the `PTRACE_PEEKUSER` debug-register reads lines 799-806) targets
`active_thread()`; the contents of the register buffers are outside this
model. -/
def get_state (s : CoreState) : List Action :=
  if attached s then
    [Action.getRegs s.active_thread, Action.getRegSet s.active_thread,
     Action.peekUserDbg s.active_thread]
  else []

/-! ## read_pages (lines 537-558) -/

/-- Source method `DebuggerCore::read_pages`, breakpoint overlay: `data` is
the `n` bytes the read of `/proc/<pid>/mem` placed in the caller's buffer,
`bps` the `breakpoints_` store as (address, original byte) pairs (it is
keyed by address, hence address-distinct).  For every breakpoint whose
address lies in `[address, address + n)` the byte at the corresponding
offset is replaced by the breakpoint's original byte. -/
def overlay (n address : Nat) (bps : List (Nat × Nat)) (b : List Nat) : List Nat :=
  match bps with
  | [] => b
  | bp :: rest =>
    overlay n address rest
      (if address ≤ bp.1 ∧ bp.1 < address + n then b.set (bp.1 - address) bp.2 else b)

/-- Entry point of the overlay: `n` is the byte count the read returned. -/
def read_pages (address : Nat) (data : List Nat) (bps : List (Nat × Nat)) : List Nat :=
  overlay data.length address bps data

/-! ## Basic lemmas about the set and table helpers -/

theorem wcontains_winsert_self (w : WaitedSet) (t : Nat) :
    wcontains (winsert w t) t = true := by
  unfold winsert
  split
  · assumption
  · simp [wcontains]

theorem wcontains_winsert_of (w : WaitedSet) (t u : Nat) (h : wcontains w u = true) :
    wcontains (winsert w t) u = true := by
  unfold winsert
  split
  · exact h
  · simp [wcontains, h]

theorem wcontains_wremove_self (w : WaitedSet) (t : Nat) :
    wcontains (wremove w t) t = false := by
  induction w with
  | nil => rfl
  | cons x rest ih =>
    by_cases hx : x = t
    · simpa [wremove, List.filter_cons, hx] using ih
    · simpa [wremove, List.filter_cons, hx, wcontains] using ih

theorem tlookup_tinsert_self (m : ThreadTable) (k : Nat) (v : thread_info) :
    tlookup (tinsert m k v) k = some v := by
  induction m with
  | nil => simp [tinsert, tlookup]
  | cons p rest ih =>
    obtain ⟨k1, v1⟩ := p
    by_cases h : k1 = k
    · simp [tinsert, tlookup, h]
    · simp [tinsert, tlookup, h, ih]

theorem keys_tinsert_of_contains (m : ThreadTable) (k : Nat) (v : thread_info)
    (h : tcontains m k = true) :
    (tinsert m k v).map Prod.fst = m.map Prod.fst := by
  induction m with
  | nil => simp [tcontains, tlookup] at h
  | cons p rest ih =>
    obtain ⟨k1, v1⟩ := p
    by_cases hk : k1 = k
    · simp [tinsert, hk]
    · have h2 : tcontains rest k = true := by
        simpa [tcontains, tlookup, hk] using h
      simp [tinsert, hk, ih h2]

theorem mem_keys_iff_tcontains (m : ThreadTable) (k : Nat) :
    k ∈ m.map Prod.fst ↔ tcontains m k = true := by
  induction m with
  | nil => simp [tcontains, tlookup]
  | cons p rest ih =>
    obtain ⟨k1, v1⟩ := p
    by_cases hk : k1 = k
    · simp [tcontains, tlookup, hk]
    · simp [tcontains, tlookup, hk, ih, Ne.symm hk]

theorem tcontains_update_status_self (m : ThreadTable) (k : Nat) (st : Nat) :
    tcontains (update_status m k st) k = true := by
  unfold update_status
  split <;> simp [tcontains, tlookup_tinsert_self]

theorem keys_update_status_of_contains (m : ThreadTable) (k : Nat) (st : Nat)
    (h : tcontains m k = true) :
    (update_status m k st).map Prod.fst = m.map Prod.fst := by
  unfold update_status
  split
  · exact keys_tinsert_of_contains m k _ h
  · next heq =>
    exact absurd h (by simp [tcontains, heq])

/-! ## Claim C4: the resume-code rule -/

/-- Claim C4: for every raw wait status `s`, `resume_code` returns 0 when `s`
is a stop with stop signal SIGSTOP; otherwise `WTERMSIG s` when
`WIFSIGNALED s`; otherwise `WSTOPSIG s` when `WIFSTOPPED s`; otherwise 0. -/
theorem claim_C4_resume_code_rule (s : Nat) :
    (WIFSTOPPED s = true ∧ WSTOPSIG s = SIGSTOP → resume_code s = 0) ∧
    (¬(WIFSTOPPED s = true ∧ WSTOPSIG s = SIGSTOP) → WIFSIGNALED s = true →
      resume_code s = WTERMSIG s) ∧
    (¬(WIFSTOPPED s = true ∧ WSTOPSIG s = SIGSTOP) → WIFSIGNALED s = false →
      WIFSTOPPED s = true → resume_code s = WSTOPSIG s) ∧
    (WIFSIGNALED s = false → WIFSTOPPED s = false → resume_code s = 0) := by
  unfold resume_code
  refine ⟨?_, ?_, ?_, ?_⟩
  · rintro ⟨h1, h2⟩
    simp [h1, h2]
  · intro h1 h2
    have h3 : ¬(WIFSTOPPED s && WSTOPSIG s == SIGSTOP) = true := by
      simpa [Bool.and_eq_true, beq_iff_eq] using h1
    simp [h3, h2]
  · intro h1 h2 h4
    have h5 : WSTOPSIG s ≠ SIGSTOP := fun hc => h1 ⟨h4, hc⟩
    simp [h2, h4, h5]
  · intro h1 h2
    simp [h1, h2]

/-- Witness for C4 at the four kinds of concrete status words: 4991 is a
SIGSTOP stop, 9 a SIGKILL termination, 2943 a SIGSEGV stop, 0 a clean
exit. -/
theorem claim_C4_resume_code_rule_witness :
    resume_code 4991 = 0 ∧ resume_code 9 = WTERMSIG 9 ∧
    resume_code 2943 = WSTOPSIG 2943 ∧ resume_code 0 = 0 :=
  ⟨(claim_C4_resume_code_rule 4991).1 (by decide),
   (claim_C4_resume_code_rule 9).2.1 (by decide) (by decide),
   (claim_C4_resume_code_rule 2943).2.2.1 (by decide) (by decide) (by decide),
   (claim_C4_resume_code_rule 0).2.2.2 (by decide) (by decide)⟩

/-! ## Claim C7: the continuation discipline -/

/-- Claim C7: `ptrace_continue` and `ptrace_step` assert that the target tid
is a waited thread (and non-zero), and each removes the tid from
`waited_threads` as it issues the kernel request; consequently a second
continuation of the same thread, with no new observed stop in between,
fails the assertion — no double continuation is possible. -/
theorem claim_C7_continuation_discipline (s : CoreState) (tid sig sig2 : Nat) :
    ((ptrace_continue s tid sig).assertOk = true ↔
      (wcontains s.waited_threads tid = true ∧ tid ≠ 0)) ∧
    wcontains (ptrace_continue s tid sig).state.waited_threads tid = false ∧
    (ptrace_continue (ptrace_continue s tid sig).state tid sig2).assertOk = false ∧
    ((ptrace_step s tid sig).assertOk = true ↔
      (wcontains s.waited_threads tid = true ∧ tid ≠ 0)) ∧
    wcontains (ptrace_step s tid sig).state.waited_threads tid = false ∧
    (ptrace_step (ptrace_step s tid sig).state tid sig2).assertOk = false := by
  refine ⟨?_, ?_, ?_, ?_, ?_, ?_⟩ <;>
    simp [ptrace_continue, ptrace_step, wcontains_wremove_self]

/-- Concrete session state with a single waited thread 7, for the C7
witness. -/
def c7State : CoreState :=
  { pid := 7, active_thread := 7, event_thread := 7,
    threads := [(7, { status := 4991, state := run_state.Stopped })],
    waited_threads := [7] }

/-- Witness for C7 at a concrete state with thread 7 waited. -/
theorem claim_C7_continuation_discipline_witness :
    (((ptrace_continue c7State 7 0).assertOk = true ↔
       (wcontains c7State.waited_threads 7 = true ∧ (7 : Nat) ≠ 0)) ∧
     wcontains (ptrace_continue c7State 7 0).state.waited_threads 7 = false ∧
     (ptrace_continue (ptrace_continue c7State 7 0).state 7 0).assertOk = false ∧
     ((ptrace_step c7State 7 0).assertOk = true ↔
       (wcontains c7State.waited_threads 7 = true ∧ (7 : Nat) ≠ 0)) ∧
     wcontains (ptrace_step c7State 7 0).state.waited_threads 7 = false ∧
     (ptrace_step (ptrace_step c7State 7 0).state 7 0).assertOk = false) :=
  claim_C7_continuation_discipline c7State 7 0 0

/-! ## Claim C9: wait_debug_event requires an attached session -/

/-- Claim C9: for every timeout, when no session is attached
`wait_debug_event` returns a null event, issues no `waitpid`, and leaves
the session state (in particular the thread table) untouched. -/
theorem claim_C9_wait_requires_attached (env : Env) (s : CoreState) (msecs : Int)
    (h : attached s = false) :
    wait_debug_event env s msecs = { state := s, event := none, actions := [] } := by
  unfold wait_debug_event
  simp [h]

/-- Witness for C9 on the detached initial state. -/
theorem claim_C9_wait_requires_attached_witness :
    wait_debug_event
      { poll := fun _ => some 0, get_event_msg := fun _ => none,
        wait_new_thread := fun _ => none, wait_stop := fun _ => none,
        sigchld_timeout := false } initState 100 =
      { state := initState, event := none, actions := [] } :=
  claim_C9_wait_requires_attached _ initState 100 (by decide)

/-! ## Claim C10: set_active_thread is a no-op -/

/-- Claim C10: for every tid, in or out of the thread table,
`set_active_thread` leaves the whole session state unchanged — in
particular `active_thread` — so a subsequent `get_state` still reads the
registers of the previously active thread. -/
theorem claim_C10_set_active_thread_noop (s : CoreState) (tid : Nat) :
    set_active_thread s tid = s ∧
    (set_active_thread s tid).active_thread = s.active_thread ∧
    get_state (set_active_thread s tid) = get_state s := by
  unfold set_active_thread
  simp

/-! ## Claim C6: breakpoint shadow bytes in read_pages -/

theorem overlay_length (n address : Nat) (bps : List (Nat × Nat)) (b : List Nat) :
    (overlay n address bps b).length = b.length := by
  induction bps generalizing b with
  | nil => rfl
  | cons bp rest ih =>
    unfold overlay
    split
    · simpa [List.length_set] using ih (b.set (bp.1 - address) bp.2)
    · exact ih b

theorem overlay_get_of_ne (n address a : Nat) (bps : List (Nat × Nat)) (b : List Nat)
    (ha : address ≤ a) (h : ∀ p ∈ bps, p.1 ≠ a) :
    (overlay n address bps b).get? (a - address) = b.get? (a - address) := by
  induction bps generalizing b with
  | nil => rfl
  | cons bp rest ih =>
    unfold overlay
    have hrest : ∀ p ∈ rest, p.1 ≠ a := fun p hp => h p (List.mem_cons_of_mem bp hp)
    split
    · next hin =>
      rw [ih _ hrest]
      refine List.get?_set_ne _ _ ?_
      have hne : bp.1 ≠ a := h bp (List.mem_cons_self bp rest)
      omega
    · exact ih b hrest

theorem overlay_get_of_mem (n address : Nat) (bp : Nat × Nat) (bps : List (Nat × Nat))
    (b : List Nat) (hb : b.length = n) (hmem : bp ∈ bps) (hnodup : (bps.map Prod.fst).Nodup)
    (h1 : address ≤ bp.1) (h2 : bp.1 < address + n) :
    (overlay n address bps b).get? (bp.1 - address) = some bp.2 := by
  induction bps generalizing b with
  | nil => cases hmem
  | cons q rest ih =>
    rcases List.mem_cons.1 hmem with hq | hq
    · subst hq
      unfold overlay
      have hnc : bp.1 ∉ rest.map Prod.fst :=
        (List.nodup_cons.mp (by rw [List.map_cons] at hnodup; exact hnodup)).1
      have hrest : ∀ p ∈ rest, p.1 ≠ bp.1 := by
        intro p hp hc
        exact hnc (hc ▸ List.mem_map_of_mem Prod.fst hp)
      rw [if_pos ⟨h1, h2⟩, overlay_get_of_ne n address bp.1 rest _ h1 hrest]
      exact List.get?_set_eq_of_lt _ (by omega)
    · unfold overlay
      have hnd : (rest.map Prod.fst).Nodup :=
        (List.nodup_cons.mp (by rw [List.map_cons] at hnodup; exact hnodup)).2
      split
      · exact ih _ (by simpa [List.length_set] using hb) hq hnd
      · exact ih b hb hq hnd

/-- Claim C6: for every `read_pages` call returning `n` bytes and every
breakpoint in the (address-keyed, hence address-distinct) breakpoint store
whose address lies in `[address, address + n)`, the returned buffer carries
the breakpoint's original byte at the corresponding offset, whatever the
bytes read from tracee memory were. -/
theorem claim_C6_read_pages_shadow_bytes (address : Nat) (data : List Nat)
    (bps : List (Nat × Nat)) (bp : Nat × Nat) (hmem : bp ∈ bps)
    (hnodup : (bps.map Prod.fst).Nodup) (h1 : address ≤ bp.1)
    (h2 : bp.1 < address + data.length) :
    (read_pages address data bps).get? (bp.1 - address) = some bp.2 :=
  overlay_get_of_mem data.length address bp bps data rfl hmem hnodup h1 h2

/-- Witness for C6: a breakpoint at address 102 with original byte 9, read
over `[100, 104)` with the trap byte 204 installed in memory. -/
theorem claim_C6_read_pages_shadow_bytes_witness :
    (read_pages 100 [1, 204, 3, 4] [(101, 9)]).get? 1 = some 9 :=
  claim_C6_read_pages_shadow_bytes 100 [1, 204, 3, 4] [(101, 9)] (101, 9)
    (by decide) (by decide) (by decide) (by decide)

/-! ## Claim C8: the initial-stop check in open -/

theorem reset_eq_initState (s : CoreState) : reset s = initState := rfl

theorem attached_initState : attached initState = false := rfl

theorem detach_of_unattached (env : Env) (s : CoreState) (h : attached s = false) :
    detach env s = (s, [Action.detachInvoked]) := by
  simp [detach, h]

theorem detachInvoked_mem_detach (env : Env) (s : CoreState) :
    Action.detachInvoked ∈ (detach env s).2 := by
  unfold detach
  split <;> simp

/-- Claim C8: in `open`, if the status of the parent's first `waitpid` on the
forked child is not a SIGTRAP stop, `open` detaches and returns false (the
session is left empty); and `open` returns true only when that first event
is a SIGTRAP stop and `PTRACE_O_TRACECLONE` was set successfully. -/
theorem claim_C8_open_initial_stop (env : Env) (oenv : OpenEnv) (childPid : Nat)
    (s0 : CoreState) :
    (∀ st, oenv.firstWait = some st →
      ¬(WIFSTOPPED st = true ∧ WSTOPSIG st = SIGTRAP) →
      (openParent env oenv childPid s0).ok = false ∧
      (openParent env oenv childPid s0).state = initState ∧
      Action.detachInvoked ∈ (openParent env oenv childPid s0).actions) ∧
    ((openParent env oenv childPid s0).ok = true →
      ∃ st, oenv.firstWait = some st ∧ WIFSTOPPED st = true ∧ WSTOPSIG st = SIGTRAP ∧
        oenv.setOptionsOk = true) := by
  constructor
  · intro st hst hbad
    have hcond : (WIFSTOPPED st && WSTOPSIG st == SIGTRAP) = false := by
      have h2 : ¬(WIFSTOPPED st && WSTOPSIG st == SIGTRAP) = true := by
        simp only [Bool.and_eq_true, beq_iff_eq]
        exact fun hc => hbad ⟨hc.1, hc.2⟩
      simpa using h2
    refine ⟨?_, ?_, ?_⟩ <;>
      simp [openParent, hst, hcond, reset_eq_initState,
        detach_of_unattached env initState attached_initState,
        detachInvoked_mem_detach]
  · intro hok
    cases hfw : oenv.firstWait with
    | none =>
      unfold openParent at hok
      simp [hfw] at hok
    | some st =>
      by_cases hc : (WIFSTOPPED st && WSTOPSIG st == SIGTRAP) = true
      · by_cases hso : oenv.setOptionsOk = true
        · obtain ⟨hc1, hc2⟩ := by simpa only [Bool.and_eq_true, beq_iff_eq] using hc
          exact ⟨st, rfl, hc1, hc2, hso⟩
        · exfalso
          unfold openParent at hok
          simp [hfw, hc, hso] at hok
      · exfalso
        unfold openParent at hok
        simp [hfw, Bool.eq_false_iff.mpr hc] at hok

/-- Concrete open environment whose first wait status 4991 is a SIGSTOP
stop, not a SIGTRAP stop. -/
def c8OpenEnv : OpenEnv := { firstWait := some 4991, setOptionsOk := true }

/-- Concrete kernel environment with no pending events, used where an
environment argument is needed but never consulted. -/
def quietEnv : Env :=
  { poll := fun _ => none, get_event_msg := fun _ => none,
    wait_new_thread := fun _ => none, wait_stop := fun _ => none,
    sigchld_timeout := false }

/-- Witness for C8: launching with a first stop that is SIGSTOP rather than
SIGTRAP fails and leaves the session empty. -/
theorem claim_C8_open_initial_stop_witness :
    (openParent quietEnv c8OpenEnv 5 initState).ok = false ∧
    (openParent quietEnv c8OpenEnv 5 initState).state = initState ∧
    Action.detachInvoked ∈ (openParent quietEnv c8OpenEnv 5 initState).actions :=
  (claim_C8_open_initial_stop quietEnv c8OpenEnv 5 initState).1 4991 rfl (by decide)

/-! ## Structural lemmas about handle_event and stop_threads -/

theorem tcontains_tremove_self (m : ThreadTable) (k : Nat) :
    tcontains (tremove m k) k = false := by
  induction m with
  | nil => rfl
  | cons p rest ih =>
    obtain ⟨k1, v1⟩ := p
    by_cases hk : k1 = k
    · simpa [tremove, List.filter_cons, hk] using ih
    · simpa [tremove, List.filter_cons, hk, tcontains, tlookup] using ih

theorem WIFEXITED_false_of_clone (status : Nat) (h : is_clone_event status = true) :
    WIFEXITED status = false := by
  unfold is_clone_event at h
  by_cases hb : (WIFSTOPPED status && WSTOPSIG status == SIGTRAP) = true
  · have hb2 : WIFSTOPPED status = true := by
      have := hb
      simp only [Bool.and_eq_true] at this
      exact this.1
    have h1 : status % 256 = 127 := by
      simpa [WIFSTOPPED] using hb2
    have h2 : status % 128 ≠ 0 := by omega
    simpa [WIFEXITED] using h2
  · rw [Bool.eq_false_iff.mpr hb] at h
    simp at h

theorem is_clone_event_false_of_exited (status : Nat) (h : WIFEXITED status = true) :
    is_clone_event status = false := by
  have h1 : status % 128 = 0 := by simpa [WIFEXITED] using h
  have h2 : status % 256 ≠ 127 := by omega
  simp [is_clone_event, WIFSTOPPED, h2]

theorem stop_go_waited_mono (env : Env) (keys : List Nat) (s : CoreState) (t : Nat)
    (h : wcontains s.waited_threads t = true) :
    wcontains (stop_threads_go env keys s).1.waited_threads t = true := by
  induction keys generalizing s with
  | nil => exact h
  | cons k rest ih =>
    unfold stop_threads_go
    split
    · exact ih s h
    · cases hw : env.wait_stop k with
      | some st => exact ih _ (wcontains_winsert_of _ _ _ h)
      | none => exact ih s h

theorem stop_go_waited_covers (env : Env) (keys : List Nat) (s : CoreState) (t : Nat)
    (hw : ∀ u, (env.wait_stop u).isSome = true) (ht : t ∈ keys) :
    wcontains (stop_threads_go env keys s).1.waited_threads t = true := by
  induction keys generalizing s with
  | nil => cases ht
  | cons k rest ih =>
    unfold stop_threads_go
    rcases List.mem_cons.1 ht with rfl | htr
    · split
      · next hk => exact stop_go_waited_mono env rest s t hk
      · cases hws : env.wait_stop t with
        | none => exact absurd (hw t) (by simp [hws])
        | some st =>
          exact stop_go_waited_mono env rest _ t (wcontains_winsert_self _ _)
    · split
      · exact ih s htr
      · cases hws : env.wait_stop k with
        | none => exact ih s htr
        | some st => exact ih _ htr

theorem stop_go_keys (env : Env) (keys : List Nat) (s : CoreState)
    (hsub : ∀ t ∈ keys, tcontains s.threads t = true) :
    (stop_threads_go env keys s).1.threads.map Prod.fst = s.threads.map Prod.fst := by
  induction keys generalizing s with
  | nil => rfl
  | cons k rest ih =>
    unfold stop_threads_go
    split
    · exact ih s (fun t ht => hsub t (List.mem_cons_of_mem k ht))
    · cases hws : env.wait_stop k with
      | none => exact ih s (fun t ht => hsub t (List.mem_cons_of_mem k ht))
      | some st =>
        have hks := keys_update_status_of_contains s.threads k st
          (hsub k (List.mem_cons_self k rest))
        have hsub2 : ∀ t ∈ rest,
            tcontains (update_status s.threads k st) t = true := by
          intro t ht
          have h1 := (mem_keys_iff_tcontains s.threads t).2
            (hsub t (List.mem_cons_of_mem k ht))
          exact (mem_keys_iff_tcontains _ t).1 (by rw [hks]; exact h1)
        calc (stop_threads_go env rest
                { s with waited_threads := winsert s.waited_threads k,
                         threads := update_status s.threads k st }).1.threads.map Prod.fst
            = (update_status s.threads k st).map Prod.fst := ih _ hsub2
          _ = s.threads.map Prod.fst := hks

theorem stop_go_pid (env : Env) (keys : List Nat) (s : CoreState) :
    (stop_threads_go env keys s).1.pid = s.pid := by
  induction keys generalizing s with
  | nil => rfl
  | cons k rest ih =>
    unfold stop_threads_go
    split
    · exact ih s
    · cases hws : env.wait_stop k with
      | none => exact ih s
      | some st => exact ih _

theorem tcontains_stop_threads (env : Env) (s : CoreState) (k : Nat)
    (h : tcontains s.threads k = true) :
    tcontains (stop_threads env s).1.threads k = true := by
  have hkeys := stop_go_keys env (s.threads.map Prod.fst) s
    (fun t ht => (mem_keys_iff_tcontains _ _).1 ht)
  have h1 : k ∈ s.threads.map Prod.fst := (mem_keys_iff_tcontains _ _).2 h
  exact (mem_keys_iff_tcontains _ _).1
    (by rw [stop_threads, hkeys]; exact h1)

/-- Shape of `handle_event` when the status is not an exit: only the waited
mark is added before the classifier body runs. -/
theorem handle_event_not_exited (env : Env) (s : CoreState) (tid status : Nat)
    (hx : WIFEXITED status = false) :
    handle_event env s tid status =
      handle_event_rest env { s with waited_threads := winsert s.waited_threads tid }
        tid status := by
  unfold handle_event
  simp [hx]

/-- Shape of `handle_event` on a thread exit that leaves other threads: the
thread is dropped and a null event returned. -/
theorem handle_event_exit_nonempty (env : Env) (s : CoreState) (tid status : Nat)
    (hx : WIFEXITED status = true) (hemp : (tremove s.threads tid).isEmpty = false) :
    handle_event env s tid status =
      { state := { s with threads := tremove s.threads tid,
                           waited_threads := wremove (winsert s.waited_threads tid) tid }
        event := none, actions := [] } := by
  unfold handle_event
  simp [hx, hemp]

/-- Shape of `handle_event` on the exit of the last thread: control falls
through to the classifier body on the emptied state. -/
theorem handle_event_exit_empty (env : Env) (s : CoreState) (tid status : Nat)
    (hx : WIFEXITED status = true) (hemp : (tremove s.threads tid).isEmpty = true) :
    handle_event env s tid status =
      handle_event_rest env
        { s with threads := tremove s.threads tid,
                 waited_threads := wremove (winsert s.waited_threads tid) tid } tid status := by
  unfold handle_event
  simp [hx, hemp]

/-- Shape of the classifier body on a non-clone status: the normal-event
branch stores the status, sets the active and event threads, runs the stop
controller and surfaces the event. -/
theorem handle_event_rest_normal (env : Env) (s : CoreState) (tid status : Nat)
    (hc : is_clone_event status = false) :
    handle_event_rest env s tid status =
      { state := (stop_threads env
          { s with active_thread := tid, event_thread := tid,
                   threads := update_status s.threads tid status }).1
        event := some { pid := s.pid, tid := tid, status := status }
        actions := [Action.getsiginfo tid] ++ (stop_threads env
          { s with active_thread := tid, event_thread := tid,
                   threads := update_status s.threads tid status }).2 } := by
  unfold handle_event_rest
  simp [hc]

/-- Projections of the classifier body on a clone whose event message was
retrieved: no event, the new tid inserted with a zero status, the reporting
tid continued with signal 0. -/
theorem handle_event_rest_clone_some (env : Env) (s : CoreState)
    (tid status new_tid : Nat)
    (hc : is_clone_event status = true) (hm : env.get_event_msg tid = some new_tid) :
    (handle_event_rest env s tid status).event = none ∧
    (handle_event_rest env s tid status).state.threads =
      tinsert s.threads new_tid { status := 0, state := run_state.Stopped } ∧
    Action.ptraceCont tid 0 ∈ (handle_event_rest env s tid status).actions := by
  unfold handle_event_rest
  simp only [hc, if_true, hm, ptrace_continue]
  split
  · split <;> simp
  · simp

/-! ## Claim C1: stop-the-world -/

theorem stw_after_stop_threads (env : Env) (s : CoreState)
    (hw : ∀ u, (env.wait_stop u).isSome = true) :
    ∀ t ∈ (stop_threads env s).1.threads.map Prod.fst,
      wcontains (stop_threads env s).1.waited_threads t = true := by
  intro t ht
  have hkeys := stop_go_keys env (s.threads.map Prod.fst) s
    (fun u hu => (mem_keys_iff_tcontains _ _).1 hu)
  rw [stop_threads] at ht ⊢
  rw [hkeys] at ht
  exact stop_go_waited_covers env _ s t hw ht

theorem handle_event_rest_stw (env : Env) (s : CoreState) (tid status : Nat)
    (hw : ∀ u, (env.wait_stop u).isSome = true)
    (he : (handle_event_rest env s tid status).event.isSome = true) :
    ∀ t ∈ (handle_event_rest env s tid status).state.threads.map Prod.fst,
      wcontains (handle_event_rest env s tid status).state.waited_threads t = true := by
  by_cases hc : is_clone_event status = true
  · exfalso
    unfold handle_event_rest at he
    simp only [hc, if_true] at he
    cases hm : env.get_event_msg tid <;> simp [hm] at he
  · rw [handle_event_rest_normal env s tid status (Bool.eq_false_iff.mpr hc)]
    exact stw_after_stop_threads env _ hw

theorem handle_event_stw (env : Env) (s : CoreState) (tid status : Nat)
    (hw : ∀ u, (env.wait_stop u).isSome = true)
    (he : (handle_event env s tid status).event.isSome = true) :
    ∀ t ∈ (handle_event env s tid status).state.threads.map Prod.fst,
      wcontains (handle_event env s tid status).state.waited_threads t = true := by
  by_cases hx : WIFEXITED status = true
  · by_cases hemp : (tremove s.threads tid).isEmpty = true
    · rw [handle_event_exit_empty env s tid status hx hemp] at he ⊢
      exact handle_event_rest_stw env _ tid status hw he
    · rw [handle_event_exit_nonempty env s tid status hx
        (Bool.eq_false_iff.mpr hemp)] at he
      simp at he
  · rw [handle_event_not_exited env s tid status (Bool.eq_false_iff.mpr hx)] at he ⊢
    exact handle_event_rest_stw env _ tid status hw he

theorem wde_loop_stw (env : Env) (keys : List Nat) (s : CoreState)
    (hw : ∀ u, (env.wait_stop u).isSome = true)
    (he : (wde_loop env keys s).event.isSome = true) :
    ∀ t ∈ (wde_loop env keys s).state.threads.map Prod.fst,
      wcontains (wde_loop env keys s).state.waited_threads t = true := by
  induction keys with
  | nil => simp [wde_loop] at he
  | cons k rest ih =>
    unfold wde_loop at he ⊢
    cases hp : env.poll k with
    | some st =>
      simp only [hp] at he ⊢
      exact handle_event_stw env s k st hw he
    | none =>
      simp only [hp] at he ⊢
      exact ih he

/-- Claim C1 (amended): whenever `wait_debug_event` returns a DebugEvent and
every `waitpid` issued by the stop controller during that call succeeded,
every thread id in the threads table is in `waited_threads`.  (The waitpid
proviso is forced: see the counterexample, where the stop controller's
`waitpid` on an already-reaped thread fails.) -/
theorem claim_C1_stop_the_world (env : Env) (s : CoreState) (msecs : Int)
    (hw : ∀ u, (env.wait_stop u).isSome = true)
    (he : (wait_debug_event env s msecs).event.isSome = true) :
    ((wait_debug_event env s msecs).state.threads.map Prod.fst).all
      (fun t => wcontains (wait_debug_event env s msecs).state.waited_threads t) = true := by
  refine List.all_eq_true.mpr ?_
  unfold wait_debug_event at he ⊢
  by_cases ha : attached s = true
  · by_cases hs : env.sigchld_timeout = true
    · simp [ha, hs] at he
    · simp only [ha, if_true, Bool.eq_false_iff.mpr hs, Bool.not_false] at he ⊢
      exact wde_loop_stw env _ s hw he
  · simp [ha] at he

/-- Concrete kernel environment for the C1 witness: thread 5 reports a
SIGSEGV stop and every stop-controller waitpid succeeds with a SIGSTOP
status. -/
def c1wEnv : Env :=
  { poll := fun t => if t == 5 then some 2943 else none
    get_event_msg := fun _ => none
    wait_new_thread := fun _ => none
    wait_stop := fun _ => some 4991
    sigchld_timeout := false }

/-- Concrete two-thread session for the C1 witness. -/
def c1wState : CoreState :=
  { pid := 5, active_thread := 5, event_thread := 5,
    threads := [(5, { status := 2943, state := run_state.Stopped }),
                (6, { status := 1407, state := run_state.Stopped })],
    waited_threads := [] }

/-- Witness for C1 (amended) on a concrete two-thread session. -/
theorem claim_C1_stop_the_world_witness :
    ((wait_debug_event c1wEnv c1wState 100).state.threads.map Prod.fst).all
      (fun t => wcontains (wait_debug_event c1wEnv c1wState 100).state.waited_threads t) =
      true :=
  claim_C1_stop_the_world c1wEnv c1wState 100 (fun _ => rfl) (by decide)

/-- Kernel environment of the C1/C2 counterexample run: the only thread (5)
reports a clean exit, and the stop controller's waitpid on the
already-reaped thread fails, as it does against a real kernel. -/
def cexEnv : Env :=
  { poll := fun t => if t == 5 then some 0 else none
    get_event_msg := fun _ => none
    wait_new_thread := fun _ => none
    wait_stop := fun _ => none
    sigchld_timeout := false }

/-- Open environment of the counterexample run: first stop is the SIGTRAP
exec-stop, option setting succeeds. -/
def cexOpenEnv : OpenEnv := { firstWait := some 1407, setOptionsOk := true }

/-- Session reached by `open` (child pid 5) followed by
`resume(DEBUG_CONTINUE)`. -/
def cexReady : CoreState :=
  (resume (openParent cexEnv cexOpenEnv 5 initState).state EventStatus.DEBUG_CONTINUE).1

/-- Counterexample to C1 as stated: on the reachable run open, resume,
wait_debug_event with the single thread exiting, `wait_debug_event` returns
a (final exit) DebugEvent, yet thread 5 sits in the threads table and is
not in `waited_threads`. -/
theorem claim_C1_counterexample :
    (openParent cexEnv cexOpenEnv 5 initState).ok = true ∧
    (wait_debug_event cexEnv cexReady (-1)).event.isSome = true ∧
    (wait_debug_event cexEnv cexReady (-1)).state.threads.map Prod.fst = [5] ∧
    wcontains (wait_debug_event cexEnv cexReady (-1)).state.waited_threads 5 = false := by
  decide

/-! ## Claim C2: the exit event -/

/-- Claim C2 (amended): on a `WIFEXITED` status the thread is removed from
the table and from `waited_threads`; if other threads remain the call
returns null; if the table has thereby become empty a final exit DebugEvent
is returned — but the session is not reset afterwards: the status
update re-inserts the exited tid, which remains in the threads table, and
`pid` keeps its value. -/
theorem claim_C2_exit_event (env : Env) (s : CoreState) (tid status : Nat)
    (h : WIFEXITED status = true) :
    ((tremove s.threads tid).isEmpty = true →
      (handle_event env s tid status).event =
        some { pid := s.pid, tid := tid, status := status } ∧
      tcontains (handle_event env s tid status).state.threads tid = true ∧
      (handle_event env s tid status).state.pid = s.pid) ∧
    ((tremove s.threads tid).isEmpty = false →
      (handle_event env s tid status).event = none ∧
      tcontains (handle_event env s tid status).state.threads tid = false ∧
      wcontains (handle_event env s tid status).state.waited_threads tid = false) := by
  constructor
  · intro hemp
    rw [handle_event_exit_empty env s tid status h hemp,
      handle_event_rest_normal env _ tid status (is_clone_event_false_of_exited status h)]
    refine ⟨rfl, ?_, ?_⟩
    · exact tcontains_stop_threads env _ tid (tcontains_update_status_self _ tid status)
    · rw [stop_threads, stop_go_pid]
  · intro hemp
    rw [handle_event_exit_nonempty env s tid status h hemp]
    exact ⟨rfl, tcontains_tremove_self s.threads tid, wcontains_wremove_self _ tid⟩

/-- Concrete two-thread session for the C2 witness. -/
def c2wState : CoreState :=
  { pid := 1, active_thread := 1, event_thread := 1,
    threads := [(1, { status := 1407, state := run_state.Stopped }),
                (2, { status := 1407, state := run_state.Stopped })],
    waited_threads := [] }

/-- Witness for C2 (amended): a non-leader thread exit is absorbed
silently. -/
theorem claim_C2_exit_event_witness :
    (handle_event quietEnv c2wState 2 0).event = none ∧
    tcontains (handle_event quietEnv c2wState 2 0).state.threads 2 = false ∧
    wcontains (handle_event quietEnv c2wState 2 0).state.waited_threads 2 = false :=
  (claim_C2_exit_event quietEnv c2wState 2 0 (by decide)).2 (by decide)

/-- Counterexample to C2 as stated: after the final exit DebugEvent of the
reachable counterexample run, the session is not reset — the exited tid 5
is still tracked in a non-empty threads table and `pid` is still 5. -/
theorem claim_C2_counterexample :
    (wait_debug_event cexEnv cexReady (-1)).event.isSome = true ∧
    (wait_debug_event cexEnv cexReady (-1)).state.threads ≠ [] ∧
    tcontains (wait_debug_event cexEnv cexReady (-1)).state.threads 5 = true ∧
    (wait_debug_event cexEnv cexReady (-1)).state.pid = 5 := by
  decide

/-! ## Claim C3: clone resolution -/

/-- Claim C3 (amended): for every clone event whose `PTRACE_GETEVENTMSG`
succeeds, the new tid is inserted into the threads table with run state
Stopped and last status 0 (not the observed SIGSTOP wait status — see the
counterexample), the reporting tid is continued with signal 0, and
`handle_event` returns null. -/
theorem claim_C3_clone_resolution (env : Env) (s : CoreState)
    (tid status new_tid : Nat)
    (h1 : is_clone_event status = true) (h2 : env.get_event_msg tid = some new_tid) :
    (handle_event env s tid status).event = none ∧
    tlookup (handle_event env s tid status).state.threads new_tid =
      some { status := 0, state := run_state.Stopped } ∧
    Action.ptraceCont tid 0 ∈ (handle_event env s tid status).actions := by
  rw [handle_event_not_exited env s tid status (WIFEXITED_false_of_clone status h1)]
  obtain ⟨he, ht, ha⟩ := handle_event_rest_clone_some env
    { s with waited_threads := winsert s.waited_threads tid } tid status new_tid h1 h2
  refine ⟨he, ?_, ha⟩
  rw [ht]
  exact tlookup_tinsert_self _ _ _

/-- Kernel environment of the C3 runs: thread 1 reports a clone of thread 2,
whose initial SIGSTOP is observed as status 4991. -/
def c3Env : Env :=
  { poll := fun _ => none
    get_event_msg := fun t => if t == 1 then some 2 else none
    wait_new_thread := fun t => if t == 2 then some 4991 else none
    wait_stop := fun _ => some 4991
    sigchld_timeout := false }

/-- Single-thread session in which thread 1 reports the clone. -/
def c3State : CoreState :=
  { pid := 1, active_thread := 1, event_thread := 1,
    threads := [(1, { status := 1407, state := run_state.Stopped })],
    waited_threads := [1] }

/-- Witness for C3 (amended) on the concrete clone run: 198015 is a SIGTRAP
stop carrying `PTRACE_EVENT_CLONE` in its high bits. -/
theorem claim_C3_clone_resolution_witness :
    (handle_event c3Env c3State 1 198015).event = none ∧
    tlookup (handle_event c3Env c3State 1 198015).state.threads 2 =
      some { status := 0, state := run_state.Stopped } ∧
    Action.ptraceCont 1 0 ∈ (handle_event c3Env c3State 1 198015).actions :=
  claim_C3_clone_resolution c3Env c3State 1 198015 2 (by decide) rfl

/-- Counterexample to C3 as stated: the SIGSTOP wait status observed for the
new thread 2 is 4991, yet the record inserted for it carries last status 0,
not 4991. -/
theorem claim_C3_counterexample :
    c3Env.wait_new_thread 2 = some 4991 ∧
    tlookup (handle_event c3Env c3State 1 198015).state.threads 2 =
      some { status := 0, state := run_state.Stopped } ∧
    (0 : Nat) ≠ 4991 := by
  decide

/-! ## Claim C5: the stat-line parser -/

/-- Helper predicate for parser lemmas: the input does not begin with a
digit, so a digit run ends exactly there. -/
def noDigitHead (cs : List Char) : Bool :=
  match cs with
  | [] => true
  | c :: _ => !(isDigitChar c)

theorem digitChar_isDigit (d : Nat) (h : d < 10) : isDigitChar (digitChar d) = true := by
  interval_cases d <;> decide

theorem digitChar_toNat (d : Nat) (h : d < 10) : (digitChar d).toNat = 48 + d := by
  interval_cases d <;> decide

theorem beq_false_of_digit_ne (c x : Char) (h : isDigitChar c = true)
    (hx : isDigitChar x = false) : (c == x) = false := by
  refine beq_eq_false_iff_ne.mpr ?_
  intro hc
  rw [hc, hx] at h
  exact Bool.false_ne_true h

theorem isCSpace_eq_false_of_digit (c : Char) (h : isDigitChar c = true) :
    isCSpace c = false := by
  unfold isCSpace
  rw [beq_false_of_digit_ne c ' ' h (by decide),
    beq_false_of_digit_ne c '\t' h (by decide),
    beq_false_of_digit_ne c '\n' h (by decide),
    beq_false_of_digit_ne c (Char.ofNat 11) h (by decide),
    beq_false_of_digit_ne c (Char.ofNat 12) h (by decide),
    beq_false_of_digit_ne c '\r' h (by decide)]
  rfl

theorem skipSpaces_nonspace (c : Char) (cs : List Char) (h : isCSpace c = false) :
    skipSpaces (c :: cs) = c :: cs := by
  unfold skipSpaces
  simp [h]

theorem scanDigits_cons_digit (c : Char) (cs : List Char) (acc : Nat)
    (h : isDigitChar c = true) :
    scanDigits (c :: cs) acc = scanDigits cs (acc * 10 + (c.toNat - 48)) := by
  conv_lhs => unfold scanDigits
  simp [h]

theorem scanDigits_stop (cs : List Char) (acc : Nat) (h : noDigitHead cs = true) :
    scanDigits cs acc = (acc, cs) := by
  cases cs with
  | nil => rfl
  | cons c rest =>
    have hc : isDigitChar c = false := by simpa [noDigitHead] using h
    unfold scanDigits
    simp [hc]

theorem natToCharsAux_fuel (f1 : Nat) : ∀ f2 n, n < f1 → n < f2 →
    natToCharsAux f1 n = natToCharsAux f2 n := by
  induction f1 with
  | zero => intro f2 n h1 _; omega
  | succ fa ih =>
    intro f2 n h1 h2
    cases f2 with
    | zero => omega
    | succ fb =>
      unfold natToCharsAux
      by_cases hn : n < 10
      · simp [hn]
      · have hd : n / 10 < n := Nat.div_lt_self (by omega) (by omega)
        simp only [hn, if_false]
        rw [ih fb (n / 10) (by omega) (by omega)]

theorem natToChars_eq (n : Nat) :
    natToChars n =
      if n < 10 then [digitChar n]
      else natToChars (n / 10) ++ [digitChar (n % 10)] := by
  unfold natToChars
  by_cases hn : n < 10
  · unfold natToCharsAux
    simp [hn]
  · have hd : n / 10 < n := Nat.div_lt_self (by omega) (by omega)
    conv_lhs => unfold natToCharsAux
    simp only [hn, if_false]
    rw [natToCharsAux_fuel n (n / 10 + 1) (n / 10) hd (Nat.lt_succ_self _)]

theorem natToChars_ne_nil (n : Nat) : natToChars n ≠ [] := by
  rw [natToChars_eq]
  by_cases hn : n < 10 <;> simp [hn]

theorem natToChars_all_digits (n : Nat) : ∀ c ∈ natToChars n, isDigitChar c = true := by
  induction n using Nat.strong_induction_on with
  | _ n ih =>
    rw [natToChars_eq n]
    by_cases hn : n < 10
    · simp only [hn, if_true, List.mem_singleton]
      intro c hc
      rw [hc]
      exact digitChar_isDigit n hn
    · have hd : n / 10 < n := Nat.div_lt_self (by omega) (by omega)
      simp only [hn, if_false]
      intro c hc
      rcases List.mem_append.1 hc with h | h
      · exact ih (n / 10) hd c h
      · rw [List.mem_singleton.1 h]
        exact digitChar_isDigit (n % 10) (Nat.mod_lt _ (by omega))

theorem renderStep (acc P n : Nat) :
    (acc * P + n / 10) * 10 + n % 10 = acc * (P * 10) + n := by
  have h10 : n / 10 * 10 + n % 10 = n := by omega
  calc (acc * P + n / 10) * 10 + n % 10
      = acc * (P * 10) + (n / 10 * 10 + n % 10) := by ring
    _ = acc * (P * 10) + n := by rw [h10]

theorem scanDigits_natToChars (n : Nat) : ∀ cs acc,
    scanDigits (natToChars n ++ cs) acc =
      scanDigits cs (acc * 10 ^ (natToChars n).length + n) := by
  induction n using Nat.strong_induction_on with
  | _ n ih =>
    intro cs acc
    rw [natToChars_eq n]
    by_cases hn : n < 10
    · rw [if_pos hn, List.singleton_append,
        scanDigits_cons_digit _ _ _ (digitChar_isDigit n hn), digitChar_toNat n hn]
      have h48 : 48 + n - 48 = n := by omega
      simp [h48, pow_one]
    · rw [if_neg hn]
      have hd : n / 10 < n := Nat.div_lt_self (by omega) (by omega)
      rw [List.append_assoc, List.singleton_append, ih (n / 10) hd, scanDigits_cons_digit _ _ _
        (digitChar_isDigit (n % 10) (Nat.mod_lt _ (by omega))),
        digitChar_toNat (n % 10) (Nat.mod_lt _ (by omega))]
      have h48 : 48 + n % 10 - 48 = n % 10 := by omega
      rw [h48]
      congr 1
      rw [List.length_append, List.length_singleton, pow_succ]
      exact renderStep acc (10 ^ (natToChars (n / 10)).length) n

theorem scanInt_of_digits (n : Nat) (cs : List Char) (h : noDigitHead cs = true) :
    scanInt (natToChars n ++ cs) = some ((n : Int), cs) := by
  obtain ⟨c, t, hct⟩ : ∃ c t, natToChars n = c :: t := by
    cases hnc : natToChars n with
    | nil => exact absurd hnc (natToChars_ne_nil n)
    | cons c t => exact ⟨c, t, rfl⟩
  have hcd : isDigitChar c = true :=
    natToChars_all_digits n c (by rw [hct]; exact List.mem_cons_self c t)
  have hrt : scanDigits (natToChars n ++ cs) 0 = (n, cs) := by
    rw [scanDigits_natToChars n cs 0, scanDigits_stop cs _ h]
    simp
  rw [hct, List.cons_append] at hrt ⊢
  unfold scanInt
  rw [skipSpaces_nonspace c (t ++ cs) (isCSpace_eq_false_of_digit c hcd)]
  simp [beq_false_of_digit_ne c '-' hcd (by decide),
    beq_false_of_digit_ne c '+' hcd (by decide), hcd, hrt]

theorem scanInt_minus_digits (n : Nat) (cs : List Char) (h : noDigitHead cs = true) :
    scanInt ('-' :: (natToChars n ++ cs)) = some (-(n : Int), cs) := by
  obtain ⟨c, t, hct⟩ : ∃ c t, natToChars n = c :: t := by
    cases hnc : natToChars n with
    | nil => exact absurd hnc (natToChars_ne_nil n)
    | cons c t => exact ⟨c, t, rfl⟩
  have hcd : isDigitChar c = true :=
    natToChars_all_digits n c (by rw [hct]; exact List.mem_cons_self c t)
  have hrt : scanDigits (natToChars n ++ cs) 0 = (n, cs) := by
    rw [scanDigits_natToChars n cs 0, scanDigits_stop cs _ h]
    simp
  unfold scanInt
  rw [skipSpaces_nonspace '-' (natToChars n ++ cs) (by decide)]
  rw [hct, List.cons_append] at hrt
  simp [hct, List.cons_append, hcd, hrt]

theorem scanInt_intToChars (i : Int) (cs : List Char) (h : noDigitHead cs = true) :
    scanInt (intToChars i ++ cs) = some (i, cs) := by
  unfold intToChars
  by_cases hi : i < 0
  · rw [if_pos hi, List.cons_append, scanInt_minus_digits i.natAbs cs h]
    congr 1
    congr 1
    omega
  · rw [if_neg hi, scanInt_of_digits i.natAbs cs h]
    congr 1
    congr 1
    omega

theorem scanInt_cons_space (cs : List Char) : scanInt (' ' :: cs) = scanInt cs := rfl

theorem noDigitHead_renderFields (fs : List Int) : noDigitHead (renderFields fs) = true := by
  cases fs <;> rfl

theorem parseNums_renderFields (n : Nat) (fs : List Int) (h : n ≤ fs.length) :
    parseNums n (renderFields fs) = (n, fs.take n) := by
  induction n generalizing fs with
  | zero => simp [parseNums]
  | succ m ih =>
    cases fs with
    | nil => simp at h
    | cons f rest =>
      have hsi : scanInt (' ' :: (intToChars f ++ renderFields rest)) =
          some (f, renderFields rest) := by
        rw [scanInt_cons_space]
        exact scanInt_intToChars f _ (noDigitHead_renderFields rest)
      unfold parseNums renderFields
      rw [hsi]
      simp [ih rest (by simpa using h)]

theorem takeSet_exact (comm : List Char) (c : Char) (rest : List Char) :
    ∀ fuel, comm.length ≤ fuel → (∀ x ∈ comm, isScanChar x = true) →
    isScanChar c = false →
    takeSet fuel (comm ++ c :: rest) = (comm, c :: rest) := by
  induction comm with
  | nil =>
    intro fuel _ _ hc
    cases fuel with
    | zero => simp [takeSet]
    | succ f => simp [takeSet, hc]
  | cons a as ih =>
    intro fuel hf hall hc
    cases fuel with
    | zero => simp at hf
    | succ f =>
      unfold takeSet
      rw [List.cons_append]
      simp only [hall a (List.mem_cons_self a as), if_true,
        ih f (by simpa using hf) (fun x hx => hall x (List.mem_cons_of_mem a hx)) hc]

theorem scanSet_exact (comm : List Char) (c : Char) (rest : List Char)
    (h1 : comm ≠ []) (h2 : comm.length ≤ 255) (h3 : ∀ x ∈ comm, isScanChar x = true)
    (hc : isScanChar c = false) :
    scanSet (comm ++ c :: rest) = some (comm, c :: rest) := by
  unfold scanSet
  rw [takeSet_exact comm c rest 255 h2 h3 hc]
  cases comm with
  | nil => exact absurd rfl h1
  | cons a as => rfl

/-- Claim C5 (amended): for every well-formed stat line whose comm consists
of characters of the parser's scanset — letters, digits, underscore, space,
hash, tilde, slash, dash, but not parentheses — and is at most 255 long,
and whose state character is not whitespace, `get_user_stat` parses a pid
and state matching the generator inputs and returns a field count of 46,
which is at least 44.  (Dropping parentheses from the tolerated comm
characters is forced: see the counterexample.) -/
theorem claim_C5_stat_comm_tolerance (pid : Nat) (comm : List Char) (state : Char)
    (fields : List Int)
    (h1 : comm ≠ []) (h2 : comm.length ≤ 255) (h3 : ∀ c ∈ comm, isScanChar c = true)
    (h4 : isCSpace state = false) (h5 : 41 ≤ fields.length) :
    (get_user_stat (mkStatLine pid comm state fields)).1 = 46 ∧
    (get_user_stat (mkStatLine pid comm state fields)).2.pid = (pid : Int) ∧
    (get_user_stat (mkStatLine pid comm state fields)).2.state = state := by
  have hline : mkStatLine pid comm state fields =
      natToChars pid ++ (' ' :: '(' ::
        (comm ++ (')' :: ' ' :: state :: renderFields fields))) := by
    unfold mkStatLine
    simp [List.append_assoc]
  have hscan : scanInt (natToChars pid ++ (' ' :: '(' ::
      (comm ++ (')' :: ' ' :: state :: renderFields fields)))) =
      some ((pid : Int), ' ' :: '(' ::
        (comm ++ (')' :: ' ' :: state :: renderFields fields))) :=
    scanInt_of_digits pid _ rfl
  have hsk1 : skipSpaces (' ' :: '(' ::
      (comm ++ (')' :: ' ' :: state :: renderFields fields))) =
      '(' :: (comm ++ (')' :: ' ' :: state :: renderFields fields)) := rfl
  have hset : scanSet (comm ++ (')' :: ' ' :: state :: renderFields fields)) =
      some (comm, ')' :: ' ' :: state :: renderFields fields) :=
    scanSet_exact comm ')' _ h1 h2 h3 (by decide)
  have hsk2 : skipSpaces (' ' :: state :: renderFields fields) =
      state :: renderFields fields :=
    skipSpaces_nonspace state _ h4
  have hnums := parseNums_renderFields 41 fields h5
  rw [hline]
  unfold get_user_stat
  rw [hscan]
  simp only [hsk1, hset, hsk2, hnums]
  norm_num

/-- Concrete stat line whose comm field `a(b` contains a parenthesis. -/
def c5Line : List Char :=
  mkStatLine 123 ['a', '(', 'b'] 'R' (List.replicate 41 (0 : Int))

/-- Counterexample to C5 as stated: on a well-formed stat line whose comm
contains a parenthesis, the parser stops after 5 conversions (below 44) and
the parsed state character is the letter after the inner parenthesis, not
the generated state `R`. -/
theorem claim_C5_counterexample :
    (get_user_stat c5Line).1 = 5 ∧ ¬(44 ≤ (get_user_stat c5Line).1) ∧
    (get_user_stat c5Line).2.pid = 123 ∧
    (get_user_stat c5Line).2.state = 'b' ∧ 'b' ≠ 'R' := by
  decide

/-- Witness for C5 (amended) at a concrete one-character comm. -/
theorem claim_C5_stat_comm_tolerance_witness :
    (get_user_stat (mkStatLine 1 ['a'] 'R' (List.replicate 41 (0 : Int)))).1 = 46 ∧
    (get_user_stat (mkStatLine 1 ['a'] 'R' (List.replicate 41 (0 : Int)))).2.pid = (1 : Int) ∧
    (get_user_stat (mkStatLine 1 ['a'] 'R' (List.replicate 41 (0 : Int)))).2.state = 'R' :=
  claim_C5_stat_comm_tolerance 1 ['a'] 'R' (List.replicate 41 (0 : Int))
    (by decide) (by decide) (by decide) (by decide) (by decide)

end DebuggerCore
